import Mathlib

/-!
Verification of the TDengine task scheduler (`src/util/src/tsched.c`).

The scheduler is a fixed-capacity circular task queue (`SSchedQueue`)
guarded by one mutex and two counting semaphores (`emptySem`, `fullSem`),
serviced by a pool of worker threads.  We give a shallow embedding of the
queue state and of each public operation as a pure state transformer that
additionally records the ordered list of externally visible actions
(semaphore waits/posts, lock operations, slot reads/writes, callback
invocations, log records, timer operations) performed by the C code,
in source order.  A call that would suspend on a semaphore with no permit
available is modelled as `none` ("the call has not completed"); the
pathological log-and-continue paths taken only when a semaphore or mutex
primitive itself fails are not modelled (normal OS semantics assumed,
matching the spec's "transient wait interruption is retried" policy).
-/

/-- Identifies one of the two counting semaphores of an `SSchedQueue`. -/
inductive SemId where
  | empty
  | full
deriving DecidableEq, Repr

/-- Modelled from the spec and the field accesses in `tsched.c`
(`msg.fp`, `msg.tfp`, `msg.ahandle`, `msg.thandle`, `pMsg->msg`): the
header defining `SSchedMsg` is not part of the sources.  A task record
with two optional callback shapes: `fp` is the direct callback (invoked
with the whole record), `tfp` is the handle-pair callback (invoked with
`ahandle` and `thandle`).  Function pointers and `void *` payloads are
modelled as abstract numeric identities; `none` is a NULL function
pointer and `0` a NULL data pointer. -/
structure SSchedMsg where
  fp : Option Nat
  tfp : Option Nat
  msg : Nat
  ahandle : Nat
  thandle : Nat
deriving DecidableEq, Repr

/-- The all-zero `SSchedMsg`, as produced by `calloc` / `memset(…, 0, …)`. -/
def emptyMsg : SSchedMsg :=
  { fp := none, tfp := none, msg := 0, ahandle := 0, thandle := 0 }

/-- The scheduler state, after `SSchedQueue` in `tsched.c`.  The two
semaphores are modelled by their counter values, the slot array by a
list of length `queueSize`, and the timer fields by optional numeric
tokens (`none` is NULL). -/
structure SSchedQueue where
  label : String
  emptySem : Nat
  fullSem : Nat
  fullSlot : Nat
  emptySlot : Nat
  queueSize : Nat
  numOfThreads : Nat
  queue : List SSchedMsg
  pTmrCtrl : Option Nat
  pTimer : Option Nat
deriving DecidableEq, Repr

/-- `DUMP_SCHEDULER_TIME_WINDOW` from `tsched.c`: the fixed rearm
interval of the diagnostic timer, in milliseconds. -/
def DUMP_SCHEDULER_TIME_WINDOW : Nat := 30000

/-- Externally visible actions of the queue operations, in the order the
C code performs them. -/
inductive Event where
  | semWait (s : SemId)
  | mutexLock
  | mutexUnlock
  | readSlot (i : Nat) (m : SSchedMsg)
  | clearSlot (i : Nat)
  | writeSlot (i : Nat) (m : SSchedMsg)
  | semPost (s : SemId)
  | invokeFp (m : SSchedMsg)
  | invokeTfp (ahandle thandle : Nat)
  | logDropped
  | emitStatus (label : String) (size : Int) (numOfThreads : Nat)
  | tmrReset (interval : Nat)
deriving DecidableEq, Repr

/-- `true` exactly on the two callback-invocation events. -/
def Event.isInvoke : Event → Bool
  | Event.invokeFp _ => true
  | Event.invokeTfp _ _ => true
  | _ => false

/-- The queue part of `taosInitScheduler` (lines 63-68 of `tsched.c`):
`queueSize` slots zeroed by `calloc`, both cursors 0, `emptySem`
initialised to `queueSize` and `fullSem` to 0, no timer registered. -/
def taosInitScheduler (queueSize : Nat) (numOfThreads : Nat) (label : String) : SSchedQueue :=
  { label := label
    emptySem := queueSize
    fullSem := 0
    fullSlot := 0
    emptySlot := 0
    queueSize := queueSize
    numOfThreads := numOfThreads
    queue := List.replicate queueSize emptyMsg
    pTmrCtrl := none
    pTimer := none }

/-- The dispatch tail of the worker loop (lines 145-148 of `tsched.c`):
`if (msg.fp) (*(msg.fp))(&msg); else if (msg.tfp) (*(msg.tfp))(msg.ahandle, msg.thandle);`
returned as the list of invocation events it performs. -/
def schedDispatch (m : SSchedMsg) : List Event :=
  match m.fp with
  | some _ => [Event.invokeFp m]
  | none =>
    match m.tfp with
    | some _ => [Event.invokeTfp m.ahandle m.thandle]
    | none => []

/-- One iteration of the worker loop `taosProcessSchedQueue`
(lines 122-149 of `tsched.c`): wait on `fullSem`, lock, read the record
at `fullSlot`, `memset` that slot to zero, advance
`fullSlot = (fullSlot + 1) % queueSize`, unlock, post `emptySem`, then
dispatch the record's callback.  `none` when `fullSem` has no permit
(the worker stays blocked in `tsem_wait`). -/
def taosProcessSchedQueueStep (p : SSchedQueue) :
    Option (SSchedQueue × SSchedMsg × List Event) :=
  if p.fullSem = 0 then none
  else
    let msg := p.queue.getD p.fullSlot emptyMsg
    let p' : SSchedQueue :=
      { p with
        fullSem := p.fullSem - 1
        queue := p.queue.set p.fullSlot emptyMsg
        fullSlot := (p.fullSlot + 1) % p.queueSize
        emptySem := p.emptySem + 1 }
    some (p', msg,
      [Event.semWait SemId.full, Event.mutexLock,
       Event.readSlot p.fullSlot msg, Event.clearSlot p.fullSlot,
       Event.mutexUnlock, Event.semPost SemId.empty] ++ schedDispatch msg)

/-- `taosScheduleTask` (lines 154-182 of `tsched.c`).  A NULL handle
logs the drop and returns 0 at once, touching nothing.  Otherwise the
call waits on `emptySem` (`none` while no permit is available: the
caller stays blocked), then locks, copies `pMsg` by value into slot
`emptySlot`, advances `emptySlot = (emptySlot + 1) % queueSize`,
unlocks, posts `fullSem`, and returns 0. -/
def taosScheduleTask (qhandle : Option SSchedQueue) (pMsg : SSchedMsg) :
    Option (Int × Option SSchedQueue × List Event) :=
  match qhandle with
  | none => some (0, none, [Event.logDropped])
  | some p =>
    if p.emptySem = 0 then none
    else
      let p' : SSchedQueue :=
        { p with
          emptySem := p.emptySem - 1
          queue := p.queue.set p.emptySlot pMsg
          emptySlot := (p.emptySlot + 1) % p.queueSize
          fullSem := p.fullSem + 1 }
      some (0, some p',
        [Event.semWait SemId.empty, Event.mutexLock,
         Event.writeSlot p.emptySlot pMsg,
         Event.mutexUnlock, Event.semPost SemId.full])

/-- An atomic queue operation: a producer's enqueue (the body of
`taosScheduleTask` on a live handle) or a worker's claim step. -/
inductive SchedOp where
  | enqueue (m : SSchedMsg)
  | dequeue
deriving DecidableEq, Repr

/-- Apply one atomic queue operation; `none` when the operation is
blocked on its semaphore (it has not completed, so it contributes no
quiescent point). -/
def schedStep (p : SSchedQueue) : SchedOp → Option SSchedQueue
  | SchedOp.enqueue m =>
    match taosScheduleTask (some p) m with
    | some (_, some p', _) => some p'
    | _ => none
  | SchedOp.dequeue =>
    match taosProcessSchedQueueStep p with
    | some (p', _, _) => some p'
    | none => none

/-- Run a sequence of completed atomic queue operations. -/
def runOps (p : SSchedQueue) : List SchedOp → Option SSchedQueue
  | [] => some p
  | op :: rest =>
    match schedStep p op with
    | some q => runOps q rest
    | none => none

/-- The occupancy expression of `taosDumpSchedulerStatus` (line 217 of
`tsched.c`): `((emptySlot - fullSlot) + queueSize) % queueSize` in
signed integer arithmetic. -/
def occupied (p : SSchedQueue) : Int :=
  (((p.emptySlot : Int) - (p.fullSlot : Int)) + (p.queueSize : Int)) % (p.queueSize : Int)

/-- State invariant of a live scheduler queue: the semaphore counters
sum to the capacity, both cursors are in range, the produce cursor sits
`fullSem` slots past the consume cursor, and the slot array has exactly
`queueSize` entries. -/
def SchedInv (p : SSchedQueue) : Prop :=
  p.emptySem + p.fullSem = p.queueSize ∧
  p.fullSlot < p.queueSize ∧
  p.emptySlot = (p.fullSlot + p.fullSem) % p.queueSize ∧
  p.queue.length = p.queueSize

instance (p : SSchedQueue) : Decidable (SchedInv p) := by
  unfold SchedInv; infer_instance

/-- The queued tasks in consumption order: the `fullSem` records
starting at `fullSlot`, read circularly. -/
def content (p : SSchedQueue) : List SSchedMsg :=
  (List.range p.fullSem).map (fun i => p.queue.getD ((p.fullSlot + i) % p.queueSize) emptyMsg)

/-- Setting one slot leaves every other slot's `getD` value unchanged. -/
lemma getD_set_ne {α : Type} (l : List α) (i j : Nat) (a d : α) (h : i ≠ j) :
    (l.set i a).getD j d = l.getD j d := by
  simp [List.getD_eq_getElem?_getD, List.getElem?_set_ne h]

/-- Setting a slot in range makes its `getD` value the written element. -/
lemma getD_set_self {α : Type} (l : List α) (i : Nat) (a d : α) (h : i < l.length) :
    (l.set i a).getD i d = a := by
  simp [List.getD_eq_getElem?_getD, List.getElem?_set_self, h]

/-- Two circular indices `(f + i) % Q` and `(f + n) % Q` with
`i < n < Q` are distinct. -/
lemma addMod_ne {Q f i n : Nat} (hi : i < n) (hn : n < Q) :
    (f + i) % Q ≠ (f + n) % Q := by
  intro h
  have h2 : i % Q = n % Q := Nat.ModEq.add_left_cancel' f h
  rw [Nat.mod_eq_of_lt (lt_trans hi hn), Nat.mod_eq_of_lt hn] at h2
  omega

/-- The state written by the enqueue path of `taosScheduleTask`. -/
def enqState (p : SSchedQueue) (m : SSchedMsg) : SSchedQueue :=
  { p with
    emptySem := p.emptySem - 1
    queue := p.queue.set p.emptySlot m
    emptySlot := (p.emptySlot + 1) % p.queueSize
    fullSem := p.fullSem + 1 }

/-- The state written by one worker-loop iteration. -/
def deqState (p : SSchedQueue) : SSchedQueue :=
  { p with
    fullSem := p.fullSem - 1
    queue := p.queue.set p.fullSlot emptyMsg
    fullSlot := (p.fullSlot + 1) % p.queueSize
    emptySem := p.emptySem + 1 }

lemma scheduleTask_eq (p : SSchedQueue) (m : SSchedMsg) (h : p.emptySem ≠ 0) :
    taosScheduleTask (some p) m =
      some (0, some (enqState p m),
        [Event.semWait SemId.empty, Event.mutexLock,
         Event.writeSlot p.emptySlot m,
         Event.mutexUnlock, Event.semPost SemId.full]) := by
  simp [taosScheduleTask, enqState, h]

lemma processStep_eq (p : SSchedQueue) (h : p.fullSem ≠ 0) :
    taosProcessSchedQueueStep p =
      some (deqState p, p.queue.getD p.fullSlot emptyMsg,
        [Event.semWait SemId.full, Event.mutexLock,
         Event.readSlot p.fullSlot (p.queue.getD p.fullSlot emptyMsg),
         Event.clearSlot p.fullSlot,
         Event.mutexUnlock, Event.semPost SemId.empty] ++
          schedDispatch (p.queue.getD p.fullSlot emptyMsg)) := by
  simp [taosProcessSchedQueueStep, deqState, h]

lemma inv_enqState (p : SSchedQueue) (m : SSchedMsg)
    (hinv : SchedInv p) (h : 0 < p.emptySem) : SchedInv (enqState p m) := by
  obtain ⟨h1, h2, h3, h4⟩ := hinv
  refine ⟨by simp [enqState]; omega, by simpa [enqState] using h2, ?_, by simp [enqState, h4]⟩
  simp only [enqState]
  rw [h3, Nat.mod_add_mod]
  congr 1

lemma inv_deqState (p : SSchedQueue)
    (hinv : SchedInv p) (h : 0 < p.fullSem) : SchedInv (deqState p) := by
  obtain ⟨h1, h2, h3, h4⟩ := hinv
  have hQ : 0 < p.queueSize := lt_of_le_of_lt (Nat.zero_le _) h2
  refine ⟨by simp [deqState]; omega, by simp [deqState]; exact Nat.mod_lt _ hQ, ?_,
    by simp [deqState, h4]⟩
  simp only [deqState]
  rw [h3, Nat.mod_add_mod]
  congr 1
  omega

lemma content_enqState (p : SSchedQueue) (m : SSchedMsg)
    (hinv : SchedInv p) (h : 0 < p.emptySem) :
    content (enqState p m) = content p ++ [m] := by
  obtain ⟨h1, h2, h3, h4⟩ := hinv
  have hQ : 0 < p.queueSize := lt_of_le_of_lt (Nat.zero_le _) h2
  have hs : p.fullSem < p.queueSize := by omega
  simp only [content, enqState]
  rw [List.range_succ, List.map_append]
  congr 1
  · apply List.map_congr_left
    intro i hi
    rw [List.mem_range] at hi
    apply getD_set_ne
    rw [h3]
    exact fun hcontra => addMod_ne hi hs hcontra.symm
  · simp only [List.map_cons, List.map_nil]
    congr 1
    rw [h3]
    apply getD_set_self
    rw [h4]
    exact Nat.mod_lt _ hQ

lemma content_deqState (p : SSchedQueue)
    (hinv : SchedInv p) (h : 0 < p.fullSem) :
    content p = (p.queue.getD p.fullSlot emptyMsg) :: content (deqState p) := by
  obtain ⟨h1, h2, h3, h4⟩ := hinv
  have hQ : 0 < p.queueSize := lt_of_le_of_lt (Nat.zero_le _) h2
  have hs : p.fullSem ≤ p.queueSize := by omega
  simp only [content, deqState]
  obtain ⟨s, hsucc⟩ : ∃ s, p.fullSem = s + 1 := ⟨p.fullSem - 1, by omega⟩
  rw [hsucc, List.range_succ_eq_map, List.map_cons, List.map_map]
  congr 1
  · rw [Nat.add_zero, Nat.mod_eq_of_lt h2]
  · rw [show s + 1 - 1 = s by omega]
    apply List.map_congr_left
    intro i hi
    rw [List.mem_range] at hi
    simp only [Function.comp]
    rw [Nat.mod_add_mod]
    have hne : p.fullSlot ≠ (p.fullSlot + 1 + i) % p.queueSize := by
      have := addMod_ne (Q := p.queueSize) (f := p.fullSlot) (i := 0) (n := 1 + i)
        (by omega) (by omega)
      rw [Nat.add_zero, Nat.mod_eq_of_lt h2] at this
      rw [show p.fullSlot + 1 + i = p.fullSlot + (1 + i) by omega]
      exact this
    rw [getD_set_ne _ _ _ _ _ hne]
    congr 1
    congr 1
    omega

lemma schedStep_inv (p q : SSchedQueue) (op : SchedOp)
    (hinv : SchedInv p) (hstep : schedStep p op = some q) :
    SchedInv q ∧ q.queueSize = p.queueSize := by
  cases op with
  | enqueue m =>
    by_cases h : p.emptySem = 0
    · simp [schedStep, taosScheduleTask, h] at hstep
    · rw [schedStep, scheduleTask_eq p m h] at hstep
      simp only [Option.some.injEq] at hstep
      subst hstep
      exact ⟨inv_enqState p m hinv (Nat.pos_of_ne_zero h), rfl⟩
  | dequeue =>
    by_cases h : p.fullSem = 0
    · simp [schedStep, taosProcessSchedQueueStep, h] at hstep
    · rw [schedStep, processStep_eq p h] at hstep
      simp only [Option.some.injEq] at hstep
      subst hstep
      exact ⟨inv_deqState p hinv (Nat.pos_of_ne_zero h), rfl⟩

lemma runOps_inv (ops : List SchedOp) : ∀ p q : SSchedQueue,
    SchedInv p → runOps p ops = some q → SchedInv q ∧ q.queueSize = p.queueSize := by
  induction ops with
  | nil =>
    intro p q hinv hrun
    simp only [runOps, Option.some.injEq] at hrun
    subst hrun
    exact ⟨hinv, rfl⟩
  | cons op rest ih =>
    intro p q hinv hrun
    rw [runOps] at hrun
    cases hstep : schedStep p op with
    | none => rw [hstep] at hrun; cases hrun
    | some r =>
      rw [hstep] at hrun
      obtain ⟨hinvr, hszr⟩ := schedStep_inv p r op hinv hstep
      obtain ⟨hinvq, hszq⟩ := ih r q hinvr hrun
      exact ⟨hinvq, hszq.trans hszr⟩

lemma init_inv (Q nT : Nat) (lbl : String) (hQ : 0 < Q) :
    SchedInv (taosInitScheduler Q nT lbl) := by
  refine ⟨by simp [taosInitScheduler], by simpa [taosInitScheduler] using hQ,
    by simp [taosInitScheduler], by simp [taosInitScheduler]⟩

/-- Repeated worker-loop iterations: claim `n` tasks in slot order,
collecting the dequeued records. -/
def dequeueList (p : SSchedQueue) : Nat → Option (SSchedQueue × List SSchedMsg)
  | 0 => some (p, [])
  | Nat.succ n =>
    match taosProcessSchedQueueStep p with
    | some (p', m, _) =>
      match dequeueList p' n with
      | some (p'', ms) => some (p'', m :: ms)
      | none => none
    | none => none

lemma enqueueList_spec (ts : List SSchedMsg) : ∀ p : SSchedQueue,
    SchedInv p → p.fullSem + ts.length ≤ p.queueSize →
    ∃ q, runOps p (ts.map SchedOp.enqueue) = some q ∧ SchedInv q ∧
      content q = content p ++ ts ∧ q.queueSize = p.queueSize ∧
      q.fullSem = p.fullSem + ts.length := by
  induction ts with
  | nil =>
    intro p hinv _
    exact ⟨p, rfl, hinv, by simp, rfl, by simp⟩
  | cons t rest ih =>
    intro p hinv hlen
    have hfull : p.fullSem < p.queueSize := by
      simp only [List.length_cons] at hlen; omega
    have hem : p.emptySem ≠ 0 := by
      obtain ⟨h1, _, _, _⟩ := hinv; omega
    have hstep : schedStep p (SchedOp.enqueue t) = some (enqState p t) := by
      rw [schedStep, scheduleTask_eq p t hem]
    obtain ⟨q, hrun, hinvq, hcont, hsz, hsem⟩ :=
      ih (enqState p t) (inv_enqState p t hinv (Nat.pos_of_ne_zero hem))
        (by simp only [enqState]; simp only [List.length_cons] at hlen; omega)
    refine ⟨q, ?_, hinvq, ?_, by simpa [enqState] using hsz, ?_⟩
    · rw [List.map_cons, runOps, hstep]
      exact hrun
    · rw [hcont, content_enqState p t hinv (Nat.pos_of_ne_zero hem)]
      simp
    · rw [hsem]; simp [enqState]; omega

lemma dequeueList_content : ∀ (s : Nat) (p : SSchedQueue),
    SchedInv p → p.fullSem = s →
    ∃ q, dequeueList p s = some (q, content p) ∧ SchedInv q ∧ q.fullSem = 0 := by
  intro s
  induction s with
  | zero =>
    intro p hinv hs
    refine ⟨p, ?_, hinv, hs⟩
    simp [dequeueList, content, hs]
  | succ n ih =>
    intro p hinv hs
    have hfull : p.fullSem ≠ 0 := by omega
    obtain ⟨q, hdeq, hinvq, hsemq⟩ :=
      ih (deqState p) (inv_deqState p hinv (Nat.pos_of_ne_zero hfull))
        (by simp [deqState]; omega)
    refine ⟨q, ?_, hinvq, hsemq⟩
    rw [dequeueList, processStep_eq p hfull]
    simp only [hdeq]
    rw [content_deqState p hinv (Nat.pos_of_ne_zero hfull)]

/-- C1: Queue capacity invariant.  For every sequence of completed
Enqueue (`taosScheduleTask`) and Dequeue (worker-loop claim) operations
starting from a freshly constructed scheduler with capacity `Q ≥ 1`,
the occupancy `(emptySlot - fullSlot + Q) % Q` satisfies
`0 ≤ occupied ≤ Q`, and at every quiescent point
`emptySem + fullSem = Q`, with `emptySem` starting at `Q` and
`fullSem` at `0`. -/
theorem sched_capacity_invariant (Q nT : Nat) (lbl : String) (ops : List SchedOp)
    (p' : SSchedQueue) (hQ : 1 ≤ Q)
    (hrun : runOps (taosInitScheduler Q nT lbl) ops = some p') :
    (taosInitScheduler Q nT lbl).emptySem = Q ∧
    (taosInitScheduler Q nT lbl).fullSem = 0 ∧
    0 ≤ occupied p' ∧ occupied p' ≤ (Q : Int) ∧
    p'.emptySem + p'.fullSem = Q := by
  have hinv0 := init_inv Q nT lbl hQ
  obtain ⟨⟨h1, h2, h3, h4⟩, hsz⟩ := runOps_inv ops _ p' hinv0 hrun
  have hszQ : p'.queueSize = Q := by simpa [taosInitScheduler] using hsz
  have hQpos : (0 : Int) < (p'.queueSize : Int) := by
    exact_mod_cast lt_of_le_of_lt (Nat.zero_le _) h2
  have hnn : 0 ≤ occupied p' := Int.emod_nonneg _ (by omega)
  have hlt : occupied p' < (p'.queueSize : Int) := Int.emod_lt_of_pos _ hQpos
  refine ⟨by simp [taosInitScheduler], by simp [taosInitScheduler], hnn, ?_, by omega⟩
  rw [hszQ] at hlt
  omega

/-- Concrete reachable state used by the witness of
`sched_capacity_invariant`: capacity 2, one enqueue then one dequeue. -/
def witState1 : SSchedQueue :=
  { label := "", emptySem := 2, fullSem := 0, fullSlot := 1, emptySlot := 1,
    queueSize := 2, numOfThreads := 1, queue := [emptyMsg, emptyMsg],
    pTmrCtrl := none, pTimer := none }

theorem sched_capacity_invariant_witness :
    (taosInitScheduler 2 1 "").emptySem = 2 ∧
    (taosInitScheduler 2 1 "").fullSem = 0 ∧
    0 ≤ occupied witState1 ∧ occupied witState1 ≤ ((2 : Nat) : Int) ∧
    witState1.emptySem + witState1.fullSem = 2 :=
  sched_capacity_invariant 2 1 "" [SchedOp.enqueue emptyMsg, SchedOp.dequeue]
    witState1 (by decide) (by rfl)

/-- C2: Global FIFO delivery.  Any `N ≤ Q` tasks enqueued in order by a
single producer into a fresh scheduler of capacity `Q ≥ 1` are read out
of the slot buffer, in slot-claim order, exactly in submission order
(the lock serialises the claim steps, so this is independent of how
many workers perform them). -/
theorem sched_fifo_delivery (Q nT : Nat) (lbl : String) (ts : List SSchedMsg)
    (hQ : 1 ≤ Q) (hlen : ts.length ≤ Q) :
    ∃ p q, runOps (taosInitScheduler Q nT lbl) (ts.map SchedOp.enqueue) = some p ∧
      dequeueList p ts.length = some (q, ts) := by
  have hinv0 := init_inv Q nT lbl hQ
  have hcont0 : content (taosInitScheduler Q nT lbl) = [] := by
    simp [content, taosInitScheduler]
  obtain ⟨p, hrun, hinvp, hcontp, hszp, hsemp⟩ :=
    enqueueList_spec ts _ hinv0 (by simpa [taosInitScheduler] using hlen)
  rw [hcont0, List.nil_append] at hcontp
  obtain ⟨q, hdeq, _, _⟩ := dequeueList_content ts.length p hinvp
    (by simpa [taosInitScheduler] using hsemp)
  rw [hcontp] at hdeq
  exact ⟨p, q, hrun, hdeq⟩

/-- First sample task for witnesses: a direct-callback task. -/
def witMsgA : SSchedMsg :=
  { fp := some 1, tfp := none, msg := 11, ahandle := 0, thandle := 0 }

/-- Second sample task for witnesses: a handle-pair task. -/
def witMsgB : SSchedMsg :=
  { fp := none, tfp := some 2, msg := 22, ahandle := 3, thandle := 4 }

theorem sched_fifo_delivery_witness :
    ∃ p q, runOps (taosInitScheduler 2 1 "") ([witMsgA, witMsgB].map SchedOp.enqueue) = some p ∧
      dequeueList p ([witMsgA, witMsgB] : List SSchedMsg).length = some (q, [witMsgA, witMsgB]) :=
  sched_fifo_delivery 2 1 "" [witMsgA, witMsgB] (by decide) (by decide)

/-- C3: Dequeue step contract.  Each completed worker-loop iteration,
after acquiring `fullSem` and the lock, reads the record at `fullSlot`,
clears that slot to its zero value, advances
`fullSlot = (fullSlot + 1) % queueSize`, releases the lock and signals
`emptySem`, and only after that (strictly later in the event order) is
the dequeued task's callback invoked: the slot is freed before the
callback runs. -/
theorem sched_dequeue_step_contract (p : SSchedQueue) (h : 0 < p.fullSem) :
    ∃ p' msg evs, taosProcessSchedQueueStep p = some (p', msg, evs) ∧
      msg = p.queue.getD p.fullSlot emptyMsg ∧
      p'.queue = p.queue.set p.fullSlot emptyMsg ∧
      p'.fullSlot = (p.fullSlot + 1) % p.queueSize ∧
      p'.emptySem = p.emptySem + 1 ∧
      p'.fullSem = p.fullSem - 1 ∧
      evs[0]? = some (Event.semWait SemId.full) ∧
      evs[1]? = some Event.mutexLock ∧
      evs[2]? = some (Event.readSlot p.fullSlot msg) ∧
      evs[3]? = some (Event.clearSlot p.fullSlot) ∧
      evs[4]? = some Event.mutexUnlock ∧
      evs[5]? = some (Event.semPost SemId.empty) ∧
      (∀ j e, evs[j]? = some e → e.isInvoke = true → 5 < j) := by
  refine ⟨deqState p, p.queue.getD p.fullSlot emptyMsg, _,
    processStep_eq p (by omega), rfl, rfl, rfl, rfl, rfl,
    by simp, by simp, by simp, by simp, by simp, by simp, ?_⟩
  intro j e hj hi
  by_contra hgt
  have hj5 : j ≤ 5 := by omega
  interval_cases j <;>
    (simp only [List.cons_append, List.nil_append, List.getElem?_cons_zero,
       List.getElem?_cons_succ, Option.some.injEq] at hj;
     subst hj; simp [Event.isInvoke] at hi)

/-- Concrete state with one pending task, used by the witness of
`sched_dequeue_step_contract`. -/
def witState2 : SSchedQueue :=
  { label := "", emptySem := 1, fullSem := 1, fullSlot := 0, emptySlot := 1,
    queueSize := 2, numOfThreads := 1, queue := [witMsgA, emptyMsg],
    pTmrCtrl := none, pTimer := none }

theorem sched_dequeue_step_contract_witness :
    ∃ p' msg evs, taosProcessSchedQueueStep witState2 = some (p', msg, evs) ∧
      msg = witState2.queue.getD witState2.fullSlot emptyMsg ∧
      p'.queue = witState2.queue.set witState2.fullSlot emptyMsg ∧
      p'.fullSlot = (witState2.fullSlot + 1) % witState2.queueSize ∧
      p'.emptySem = witState2.emptySem + 1 ∧
      p'.fullSem = witState2.fullSem - 1 ∧
      evs[0]? = some (Event.semWait SemId.full) ∧
      evs[1]? = some Event.mutexLock ∧
      evs[2]? = some (Event.readSlot witState2.fullSlot msg) ∧
      evs[3]? = some (Event.clearSlot witState2.fullSlot) ∧
      evs[4]? = some Event.mutexUnlock ∧
      evs[5]? = some (Event.semPost SemId.empty) ∧
      (∀ j e, evs[j]? = some e → e.isInvoke = true → 5 < j) :=
  sched_dequeue_step_contract witState2 (by decide)

/-- C4: Enqueue step contract.  A completed `taosScheduleTask` call on
a live handle, after acquiring `emptySem`, locks, copies the task
record by value into slot `emptySlot`, advances
`emptySlot = (emptySlot + 1) % queueSize`, unlocks, then posts
`fullSem`, and returns 0 (success). -/
theorem sched_enqueue_step_contract (p : SSchedQueue) (m : SSchedMsg)
    (h : 0 < p.emptySem) :
    taosScheduleTask (some p) m =
      some (0, some (enqState p m),
        [Event.semWait SemId.empty, Event.mutexLock,
         Event.writeSlot p.emptySlot m,
         Event.mutexUnlock, Event.semPost SemId.full]) ∧
    (enqState p m).queue = p.queue.set p.emptySlot m ∧
    (enqState p m).emptySlot = (p.emptySlot + 1) % p.queueSize ∧
    (enqState p m).fullSem = p.fullSem + 1 ∧
    (enqState p m).emptySem = p.emptySem - 1 ∧
    (enqState p m).fullSlot = p.fullSlot :=
  ⟨scheduleTask_eq p m (by omega), rfl, rfl, rfl, rfl, rfl⟩

theorem sched_enqueue_step_contract_witness :
    taosScheduleTask (some (taosInitScheduler 2 1 "")) witMsgA =
      some (0, some (enqState (taosInitScheduler 2 1 "") witMsgA),
        [Event.semWait SemId.empty, Event.mutexLock,
         Event.writeSlot (taosInitScheduler 2 1 "").emptySlot witMsgA,
         Event.mutexUnlock, Event.semPost SemId.full]) ∧
    (enqState (taosInitScheduler 2 1 "") witMsgA).queue =
      (taosInitScheduler 2 1 "").queue.set (taosInitScheduler 2 1 "").emptySlot witMsgA ∧
    (enqState (taosInitScheduler 2 1 "") witMsgA).emptySlot =
      ((taosInitScheduler 2 1 "").emptySlot + 1) % (taosInitScheduler 2 1 "").queueSize ∧
    (enqState (taosInitScheduler 2 1 "") witMsgA).fullSem =
      (taosInitScheduler 2 1 "").fullSem + 1 ∧
    (enqState (taosInitScheduler 2 1 "") witMsgA).emptySem =
      (taosInitScheduler 2 1 "").emptySem - 1 ∧
    (enqState (taosInitScheduler 2 1 "") witMsgA).fullSlot =
      (taosInitScheduler 2 1 "").fullSlot :=
  sched_enqueue_step_contract (taosInitScheduler 2 1 "") witMsgA (by decide)

/-- C5 counterexample: the drop path of `taosScheduleTask` (NULL
handle) returns exactly the same value 0 that the success path returns,
so the "dropped" outcome is not a distinguishable indicator: at the
concrete task `witMsgA`, the returned code of a dropped submission and
of a successful enqueue on a fresh capacity-1 scheduler coincide. -/
theorem sched_drop_indicator_counterexample :
    taosScheduleTask none witMsgA = some (0, none, [Event.logDropped]) ∧
    taosScheduleTask (some (taosInitScheduler 1 1 "")) witMsgA =
      some (0, some (enqState (taosInitScheduler 1 1 "") witMsgA),
        [Event.semWait SemId.empty, Event.mutexLock,
         Event.writeSlot 0 witMsgA, Event.mutexUnlock, Event.semPost SemId.full]) ∧
    (taosScheduleTask none witMsgA).map Prod.fst =
      (taosScheduleTask (some (taosInitScheduler 1 1 "")) witMsgA).map Prod.fst := by
  refine ⟨rfl, ?_, ?_⟩ <;> rfl

/-- C5 (amended): `taosScheduleTask` on an absent handle completes
immediately — its whole effect is one log record, no semaphore wait, no
state change — and returns 0; a completed call on a live handle never
drops the task (its event list has no drop record) and implies a free
slot had been acquired (a full queue blocks the caller instead of
dropping).  The drop outcome is reported only in the log: the return
value is 0 exactly as on success. -/
theorem sched_drop_not_block (m : SSchedMsg) (p : SSchedQueue)
    (r : Int × Option SSchedQueue × List Event)
    (hr : taosScheduleTask (some p) m = some r) :
    taosScheduleTask none m = some (0, none, [Event.logDropped]) ∧
    Event.logDropped ∉ r.2.2 ∧
    0 < p.emptySem := by
  refine ⟨rfl, ?_, ?_⟩
  · by_cases h : p.emptySem = 0
    · simp [taosScheduleTask, h] at hr
    · rw [scheduleTask_eq p m h] at hr
      simp only [Option.some.injEq] at hr
      rw [← hr]
      simp
  · by_cases h : p.emptySem = 0
    · simp [taosScheduleTask, h] at hr
    · omega

theorem sched_drop_not_block_witness :
    taosScheduleTask none witMsgA = some (0, none, [Event.logDropped]) ∧
    Event.logDropped ∉
      ((0, some (enqState (taosInitScheduler 1 1 "") witMsgA),
        [Event.semWait SemId.empty, Event.mutexLock,
         Event.writeSlot 0 witMsgA, Event.mutexUnlock, Event.semPost SemId.full]) :
          Int × Option SSchedQueue × List Event).2.2 ∧
    0 < (taosInitScheduler 1 1 "").emptySem :=
  sched_drop_not_block witMsgA (taosInitScheduler 1 1 "") _ rfl

/-- C10: `taosScheduleTask` returns 0 on every completed path — when
the task is enqueued and when it is dropped for a NULL handle alike —
so the return value alone cannot distinguish success from drop. -/
theorem sched_schedule_task_returns_zero (qh : Option SSchedQueue) (m : SSchedMsg)
    (r : Int × Option SSchedQueue × List Event)
    (hr : taosScheduleTask qh m = some r) : r.1 = 0 := by
  cases qh with
  | none =>
    simp only [taosScheduleTask, Option.some.injEq] at hr
    rw [← hr]
  | some p =>
    by_cases h : p.emptySem = 0
    · simp [taosScheduleTask, h] at hr
    · rw [scheduleTask_eq p m h] at hr
      simp only [Option.some.injEq] at hr
      rw [← hr]

theorem sched_schedule_task_returns_zero_witness :
    ((0, none, [Event.logDropped]) :
      Int × Option SSchedQueue × List Event).1 = 0 ∧
    ((0, some (enqState (taosInitScheduler 1 1 "") witMsgB),
      [Event.semWait SemId.empty, Event.mutexLock,
       Event.writeSlot 0 witMsgB, Event.mutexUnlock, Event.semPost SemId.full]) :
        Int × Option SSchedQueue × List Event).1 = 0 :=
  ⟨sched_schedule_task_returns_zero none witMsgB _ rfl,
   sched_schedule_task_returns_zero (some (taosInitScheduler 1 1 "")) witMsgB _ rfl⟩

/-- C8: Two-shape dispatch.  For every record dequeued by a worker
iteration: if the direct callback `fp` is set it is invoked with the
record; otherwise if the handle-pair callback `tfp` is set it is
invoked with `(ahandle, thandle)`; if neither is set nothing is invoked
and no error/drop record is produced; and never more than one
invocation happens for one dequeued record. -/
theorem sched_two_shape_dispatch (p p' : SSchedQueue) (m : SSchedMsg)
    (evs : List Event) (h : taosProcessSchedQueueStep p = some (p', m, evs)) :
    (∀ f, m.fp = some f → evs.filter Event.isInvoke = [Event.invokeFp m]) ∧
    (∀ g, m.fp = none → m.tfp = some g →
      evs.filter Event.isInvoke = [Event.invokeTfp m.ahandle m.thandle]) ∧
    (m.fp = none → m.tfp = none → evs.filter Event.isInvoke = []) ∧
    (evs.filter Event.isInvoke).length ≤ 1 ∧
    Event.logDropped ∉ evs := by
  by_cases hfull : p.fullSem = 0
  · simp [taosProcessSchedQueueStep, hfull] at h
  · rw [processStep_eq p hfull] at h
    have h3 := Option.some.inj h
    have h4 := congrArg Prod.snd h3
    have hm : p.queue.getD p.fullSlot emptyMsg = m := congrArg Prod.fst h4
    have hevs := congrArg Prod.snd h4
    simp only at hevs
    rw [hm] at hevs
    subst hevs
    refine ⟨?_, ?_, ?_, ?_, ?_⟩
    · intro f hf2
      simp [List.filter_append, List.filter, schedDispatch, hf2, Event.isInvoke]
    · intro g hf2 ht2
      simp [List.filter_append, List.filter, schedDispatch, hf2, ht2, Event.isInvoke]
    · intro hf2 ht2
      simp [List.filter_append, List.filter, schedDispatch, hf2, ht2, Event.isInvoke]
    · rcases hf2 : m.fp with _ | f
      · rcases ht2 : m.tfp with _ | g
        · simp [List.filter_append, List.filter, schedDispatch, hf2, ht2, Event.isInvoke]
        · simp [List.filter_append, List.filter, schedDispatch, hf2, ht2, Event.isInvoke]
      · simp [List.filter_append, List.filter, schedDispatch, hf2, Event.isInvoke]
    · rcases hf2 : m.fp with _ | f
      · rcases ht2 : m.tfp with _ | g
        · simp [List.mem_append, schedDispatch, hf2, ht2]
        · simp [List.mem_append, schedDispatch, hf2, ht2]
      · simp [List.mem_append, schedDispatch, hf2]

/-- Event list of a worker iteration on `witState2`, used by the
witness of `sched_two_shape_dispatch`. -/
def witEvs : List Event :=
  [Event.semWait SemId.full, Event.mutexLock,
   Event.readSlot 0 witMsgA, Event.clearSlot 0,
   Event.mutexUnlock, Event.semPost SemId.empty, Event.invokeFp witMsgA]

theorem sched_two_shape_dispatch_witness :
    (∀ f, witMsgA.fp = some f → witEvs.filter Event.isInvoke = [Event.invokeFp witMsgA]) ∧
    (∀ g, witMsgA.fp = none → witMsgA.tfp = some g →
      witEvs.filter Event.isInvoke = [Event.invokeTfp witMsgA.ahandle witMsgA.thandle]) ∧
    (witMsgA.fp = none → witMsgA.tfp = none → witEvs.filter Event.isInvoke = []) ∧
    (witEvs.filter Event.isInvoke).length ≤ 1 ∧
    Event.logDropped ∉ witEvs :=
  sched_two_shape_dispatch witState2 witState1 witMsgA witEvs (by decide)

/-- `taosDumpSchedulerStatus` (lines 211-223 of `tsched.c`).  `tmrId`
is the token of the firing timer; `newTmr` is the fresh token that
`taosTmrReset` stores into `pSched->pTimer` when the reporter rearms
itself.  A NULL handle, a NULL stored registration, or a token mismatch
returns with no effect; otherwise the occupancy
`((emptySlot - fullSlot) + queueSize) % queueSize` is computed, a
status record is emitted only when it is positive, and the timer is
rearmed after `DUMP_SCHEDULER_TIME_WINDOW`. -/
def taosDumpSchedulerStatus (qhandle : Option SSchedQueue) (tmrId : Nat) (newTmr : Nat) :
    Option SSchedQueue × List Event :=
  match qhandle with
  | none => (none, [])
  | some p =>
    match p.pTimer with
    | none => (some p, [])
    | some t =>
      if t ≠ tmrId then (some p, [])
      else
        (some { p with pTimer := some newTmr },
          (if 0 < occupied p then
            [Event.emitStatus p.label (occupied p) p.numOfThreads]
           else []) ++ [Event.tmrReset DUMP_SCHEDULER_TIME_WINDOW])

/-- C9: DiagnosticReporter firing contract.  A firing on a NULL handle,
on a handle with no stored registration, or with a token different
from the stored registration has no effect at all; a firing whose token
matches emits a status record (label, occupancy, worker count) exactly
when the occupancy `((emptySlot - fullSlot) + queueSize) % queueSize`
is positive, always rearms itself after the same fixed interval, and
never modifies the queue cursors, the slots, or the semaphores. -/
theorem sched_dump_status_contract :
    (∀ tmrId newTmr, taosDumpSchedulerStatus none tmrId newTmr = (none, [])) ∧
    (∀ p tmrId newTmr, p.pTimer = none →
      taosDumpSchedulerStatus (some p) tmrId newTmr = (some p, [])) ∧
    (∀ p t tmrId newTmr, p.pTimer = some t → t ≠ tmrId →
      taosDumpSchedulerStatus (some p) tmrId newTmr = (some p, [])) ∧
    (∀ p t newTmr, p.pTimer = some t →
      ∃ evs, taosDumpSchedulerStatus (some p) t newTmr =
          (some { p with pTimer := some newTmr }, evs) ∧
        (0 < occupied p →
          evs = [Event.emitStatus p.label (occupied p) p.numOfThreads,
                 Event.tmrReset DUMP_SCHEDULER_TIME_WINDOW]) ∧
        (¬ 0 < occupied p → evs = [Event.tmrReset DUMP_SCHEDULER_TIME_WINDOW]) ∧
        Event.tmrReset DUMP_SCHEDULER_TIME_WINDOW ∈ evs) ∧
    (∀ qh tmrId newTmr q, (taosDumpSchedulerStatus qh tmrId newTmr).1 = some q →
      ∃ p, qh = some p ∧ q.fullSlot = p.fullSlot ∧ q.emptySlot = p.emptySlot ∧
        q.queue = p.queue ∧ q.emptySem = p.emptySem ∧ q.fullSem = p.fullSem ∧
        q.queueSize = p.queueSize) := by
  refine ⟨fun tmrId newTmr => rfl, ?_, ?_, ?_, ?_⟩
  · intro p tmrId newTmr hpt
    simp [taosDumpSchedulerStatus, hpt]
  · intro p t tmrId newTmr hpt hne
    simp [taosDumpSchedulerStatus, hpt, hne]
  · intro p t newTmr hpt
    by_cases hocc : 0 < occupied p
    · refine ⟨[Event.emitStatus p.label (occupied p) p.numOfThreads,
        Event.tmrReset DUMP_SCHEDULER_TIME_WINDOW], ?_,
        fun _ => rfl, fun hc => absurd hocc hc, ?_⟩
      · simp [taosDumpSchedulerStatus, hpt, hocc]
      · simp
    · refine ⟨[Event.tmrReset DUMP_SCHEDULER_TIME_WINDOW], ?_,
        fun hc => absurd hc hocc, fun _ => rfl, ?_⟩
      · simp [taosDumpSchedulerStatus, hpt, hocc]
      · simp
  · intro qh tmrId newTmr q hq
    cases qh with
    | none => simp [taosDumpSchedulerStatus] at hq
    | some p =>
      refine ⟨p, rfl, ?_⟩
      cases hpt : p.pTimer with
      | none =>
        simp [taosDumpSchedulerStatus, hpt] at hq
        subst hq
        exact ⟨rfl, rfl, rfl, rfl, rfl, rfl⟩
      | some t =>
        by_cases hne : t = tmrId
        · subst hne
          simp [taosDumpSchedulerStatus, hpt] at hq
          subst hq
          exact ⟨rfl, rfl, rfl, rfl, rfl, rfl⟩
        · simp [taosDumpSchedulerStatus, hpt, hne] at hq
          subst hq
          exact ⟨rfl, rfl, rfl, rfl, rfl, rfl⟩

/-- A live scheduler state with one pending task and a stored timer
registration, used by the witness of `sched_dump_status_contract`. -/
def witState3 : SSchedQueue :=
  { label := "", emptySem := 1, fullSem := 1, fullSlot := 0, emptySlot := 1,
    queueSize := 2, numOfThreads := 1, queue := [witMsgA, emptyMsg],
    pTmrCtrl := some 9, pTimer := some 7 }

theorem sched_dump_status_contract_witness :
    ∃ evs, taosDumpSchedulerStatus (some witState3) 7 8 =
        (some { witState3 with pTimer := some 8 }, evs) ∧
      (0 < occupied witState3 →
        evs = [Event.emitStatus witState3.label (occupied witState3) witState3.numOfThreads,
               Event.tmrReset DUMP_SCHEDULER_TIME_WINDOW]) ∧
      (¬ 0 < occupied witState3 → evs = [Event.tmrReset DUMP_SCHEDULER_TIME_WINDOW]) ∧
      Event.tmrReset DUMP_SCHEDULER_TIME_WINDOW ∈ evs :=
  (sched_dump_status_contract).2.2.2.1 witState3 7 8 rfl

/-- Resource-level actions of `taosInitScheduler` and
`taosCleanUpScheduler`, in the order the C code performs them. -/
inductive RAction where
  | allocSched
  | allocQueue
  | allocQthread
  | mutexInit
  | mutexInitFailed
  | semInit (s : SemId) (v : Nat)
  | threadCreate (i : Nat)
  | threadCancel (i : Nat)
  | threadJoin (i : Nat)
  | semDestroy (s : SemId)
  | mutexDestroy
  | timerStop
  | freeQueue
  | freeQthread
  | freeSched
  | logError
deriving DecidableEq, Repr

/-- The resource state of an allocated `SSchedQueue` struct as
`taosCleanUpScheduler` reads it: which buffers are non-NULL, how many
threads were started (`numOfThreads` is only incremented after a
successful `pthread_create`), and the stored timer token. -/
structure SchedBuild where
  queueAlloc : Bool
  qthreadAlloc : Bool
  numOfThreads : Nat
  pTimer : Option Nat
deriving DecidableEq, Repr

/-- The teardown sequence of `taosCleanUpScheduler` on an allocated
struct (lines 188-207 of `tsched.c`): cancel every started thread, join
every started thread, destroy both semaphores and the mutex
unconditionally, stop the timer if a registration is stored, free the
slot buffer and the thread table if allocated, and finally free the
struct itself. -/
def cleanUpActions (b : SchedBuild) : List RAction :=
  ((List.range b.numOfThreads).map RAction.threadCancel) ++
  ((List.range b.numOfThreads).map RAction.threadJoin) ++
  [RAction.semDestroy SemId.empty, RAction.semDestroy SemId.full, RAction.mutexDestroy] ++
  (match b.pTimer with
   | some _ => [RAction.timerStop]
   | none => []) ++
  (if b.queueAlloc then [RAction.freeQueue] else []) ++
  (if b.qthreadAlloc then [RAction.freeQthread] else []) ++
  [RAction.freeSched]

/-- `taosCleanUpScheduler` (lines 184-208 of `tsched.c`): a NULL handle
returns at once with no action; otherwise the full teardown runs.  The
C caller's pointer is passed by value and is never cleared by the
callee, so a repeated call on the same non-NULL handle replays the
teardown on the already-freed struct. -/
def taosCleanUpScheduler : Option SchedBuild → List RAction
  | none => []
  | some b => cleanUpActions b

/-- Failure-injection point for `taosInitSchedulerRun`: which step of
`taosInitScheduler` fails first (`noFail`, or `threadFail k` with
`k ≥ numOfThreads`, makes every step succeed). -/
inductive FailPoint where
  | allocSchedFail
  | allocQueueFail
  | allocQthreadFail
  | mutexInitFail
  | emptySemFail
  | fullSemFail
  | threadFail (k : Nat)
  | noFail
deriving DecidableEq, Repr

/-- `taosInitScheduler` (lines 42-105 of `tsched.c`) at the resource
level, with an injected failure point: allocate the struct, the slot
buffer, the thread table; init the mutex, `emptySem` (to `queueSize`)
and `fullSem` (to 0); start `numOfThreads` workers one at a time.  On
the first failing step that the code detects, it logs and calls
`taosCleanUpScheduler` on what exists so far (except that a failed
struct allocation just returns), and yields a NULL handle.  A failing
`pthread_mutex_init` is the exception: it reports failure with a
positive error number, but line 70 tests the return value with `< 0`,
so the failure goes undetected (`mutexInitFailed` is recorded, no log,
no teardown) and construction continues to a non-NULL handle whose
mutex was never initialised. -/
def taosInitSchedulerRun (fp : FailPoint) (queueSize numOfThreads : Nat) :
    Option SchedBuild × List RAction :=
  if fp = FailPoint.allocSchedFail then (none, [RAction.logError])
  else if fp = FailPoint.allocQueueFail then
    (none, [RAction.allocSched, RAction.logError] ++
      cleanUpActions
        { queueAlloc := false, qthreadAlloc := false, numOfThreads := 0, pTimer := none })
  else if fp = FailPoint.allocQthreadFail then
    (none, [RAction.allocSched, RAction.allocQueue, RAction.logError] ++
      cleanUpActions
        { queueAlloc := true, qthreadAlloc := false, numOfThreads := 0, pTimer := none })
  else if fp = FailPoint.mutexInitFail then
    (some { queueAlloc := true, qthreadAlloc := true,
            numOfThreads := numOfThreads, pTimer := none },
      [RAction.allocSched, RAction.allocQueue, RAction.allocQthread,
       RAction.mutexInitFailed, RAction.semInit SemId.empty queueSize,
       RAction.semInit SemId.full 0] ++
        (List.range numOfThreads).map RAction.threadCreate)
  else if fp = FailPoint.emptySemFail then
    (none, [RAction.allocSched, RAction.allocQueue, RAction.allocQthread,
            RAction.mutexInit, RAction.logError] ++
      cleanUpActions
        { queueAlloc := true, qthreadAlloc := true, numOfThreads := 0, pTimer := none })
  else if fp = FailPoint.fullSemFail then
    (none, [RAction.allocSched, RAction.allocQueue, RAction.allocQthread,
            RAction.mutexInit, RAction.semInit SemId.empty queueSize, RAction.logError] ++
      cleanUpActions
        { queueAlloc := true, qthreadAlloc := true, numOfThreads := 0, pTimer := none })
  else
    match fp with
    | FailPoint.threadFail k =>
      if k < numOfThreads then
        (none, [RAction.allocSched, RAction.allocQueue, RAction.allocQthread,
                RAction.mutexInit, RAction.semInit SemId.empty queueSize,
                RAction.semInit SemId.full 0] ++
          ((List.range k).map RAction.threadCreate) ++ [RAction.logError] ++
          cleanUpActions
            { queueAlloc := true, qthreadAlloc := true, numOfThreads := k, pTimer := none })
      else
        (some { queueAlloc := true, qthreadAlloc := true,
                numOfThreads := numOfThreads, pTimer := none },
          [RAction.allocSched, RAction.allocQueue, RAction.allocQthread,
           RAction.mutexInit, RAction.semInit SemId.empty queueSize,
           RAction.semInit SemId.full 0] ++
            (List.range numOfThreads).map RAction.threadCreate)
    | _ =>
      (some { queueAlloc := true, qthreadAlloc := true,
              numOfThreads := numOfThreads, pTimer := none },
        [RAction.allocSched, RAction.allocQueue, RAction.allocQthread,
         RAction.mutexInit, RAction.semInit SemId.empty queueSize,
         RAction.semInit SemId.full 0] ++
          (List.range numOfThreads).map RAction.threadCreate)

/-- `true` when the injected failure point makes a step of this
construction fail AND the code detects it.  A mutex-init failure is
excluded: `pthread_mutex_init` reports failure with a positive error
number, which the `< 0` test at line 70 never catches. -/
def isDetectedFail (fp : FailPoint) (numOfThreads : Nat) : Bool :=
  match fp with
  | FailPoint.noFail => false
  | FailPoint.mutexInitFail => false
  | FailPoint.threadFail k => decide (k < numOfThreads)
  | _ => true

lemma mem_cleanUp_freeSched (b : SchedBuild) :
    RAction.freeSched ∈ cleanUpActions b := by
  simp [cleanUpActions]

lemma mem_cleanUp_freeQueue (b : SchedBuild) (h : b.queueAlloc = true) :
    RAction.freeQueue ∈ cleanUpActions b := by
  simp [cleanUpActions, h]

lemma mem_cleanUp_freeQthread (b : SchedBuild) (h : b.qthreadAlloc = true) :
    RAction.freeQthread ∈ cleanUpActions b := by
  simp [cleanUpActions, h]

lemma mem_cleanUp_threadCancel (b : SchedBuild) (i : Nat) (h : i < b.numOfThreads) :
    RAction.threadCancel i ∈ cleanUpActions b := by
  simp [cleanUpActions]
  tauto

lemma mem_cleanUp_threadJoin (b : SchedBuild) (i : Nat) (h : i < b.numOfThreads) :
    RAction.threadJoin i ∈ cleanUpActions b := by
  simp [cleanUpActions]
  tauto

/-- `true` on the mutex/semaphore initialisation actions. -/
def initRes : RAction → Bool
  | RAction.semInit _ _ => true
  | RAction.mutexInit => true
  | _ => false

/-- C6 counterexample: two concrete refutations of the claim as
stated (capacity 4, 2 workers).  (i) When the slot-buffer allocation
fails, the constructor does return a NULL handle, but its teardown
destroys both semaphores and the mutex although no semaphore or mutex
initialisation ever happened — the cleanup touches resources that were
never initialised.  (ii) When `pthread_mutex_init` itself fails, the
`< 0` test at line 70 never fires (the call reports failure with a
positive error number), so no error is logged, no teardown runs, and
construction continues to a non-NULL handle whose mutex was never
initialised — not the absent handle the claim requires. -/
theorem sched_init_teardown_counterexample :
    (taosInitSchedulerRun FailPoint.allocQueueFail 4 2).1 = none ∧
    RAction.semDestroy SemId.empty ∈ (taosInitSchedulerRun FailPoint.allocQueueFail 4 2).2 ∧
    RAction.semDestroy SemId.full ∈ (taosInitSchedulerRun FailPoint.allocQueueFail 4 2).2 ∧
    RAction.mutexDestroy ∈ (taosInitSchedulerRun FailPoint.allocQueueFail 4 2).2 ∧
    (taosInitSchedulerRun FailPoint.allocQueueFail 4 2).2.all
      (fun a => ! initRes a) = true ∧
    (taosInitSchedulerRun FailPoint.mutexInitFail 4 2).1 =
      some { queueAlloc := true, qthreadAlloc := true, numOfThreads := 2, pTimer := none } ∧
    RAction.mutexInitFailed ∈ (taosInitSchedulerRun FailPoint.mutexInitFail 4 2).2 ∧
    RAction.mutexInit ∉ (taosInitSchedulerRun FailPoint.mutexInitFail 4 2).2 ∧
    RAction.logError ∉ (taosInitSchedulerRun FailPoint.mutexInitFail 4 2).2 := by
  decide

/-- C6 (amended): on every construction-step failure that the code
detects (struct, slot-buffer or thread-table allocation, either
semaphore init, worker creation) the constructor returns a NULL handle
(never a partial one), frees every buffer it allocated, and cancels and
joins every worker thread it started; however (i) the teardown also
unconditionally destroys the two semaphores and the mutex, even when
the failure happened before they were initialised, and (ii) a failure
of the mutex initialisation itself is never detected — the `< 0` test
at line 70 cannot catch the positive error number `pthread_mutex_init`
returns — so in that one case no teardown runs and construction
continues to a non-NULL handle whose mutex is unusable. -/
theorem sched_init_all_or_nothing (fp : FailPoint) (Q n : Nat)
    (h : isDetectedFail fp n = true) :
    ((taosInitSchedulerRun fp Q n).1 = none ∧
     (RAction.allocQueue ∈ (taosInitSchedulerRun fp Q n).2 →
       RAction.freeQueue ∈ (taosInitSchedulerRun fp Q n).2) ∧
     (RAction.allocQthread ∈ (taosInitSchedulerRun fp Q n).2 →
       RAction.freeQthread ∈ (taosInitSchedulerRun fp Q n).2) ∧
     (RAction.allocSched ∈ (taosInitSchedulerRun fp Q n).2 →
       RAction.freeSched ∈ (taosInitSchedulerRun fp Q n).2) ∧
     (∀ i, RAction.threadCreate i ∈ (taosInitSchedulerRun fp Q n).2 →
       RAction.threadCancel i ∈ (taosInitSchedulerRun fp Q n).2 ∧
       RAction.threadJoin i ∈ (taosInitSchedulerRun fp Q n).2)) ∧
    ((taosInitSchedulerRun FailPoint.mutexInitFail Q n).1 =
       some { queueAlloc := true, qthreadAlloc := true,
              numOfThreads := n, pTimer := none } ∧
     RAction.mutexInitFailed ∈ (taosInitSchedulerRun FailPoint.mutexInitFail Q n).2 ∧
     RAction.logError ∉ (taosInitSchedulerRun FailPoint.mutexInitFail Q n).2) := by
  constructor
  · cases fp with
    | noFail => simp [isDetectedFail] at h
    | mutexInitFail => simp [isDetectedFail] at h
    | allocSchedFail =>
      refine ⟨rfl, ?_, ?_, ?_, ?_⟩ <;> simp [taosInitSchedulerRun]
    | allocQueueFail =>
      refine ⟨rfl, ?_, ?_, ?_, ?_⟩ <;> simp [taosInitSchedulerRun, cleanUpActions]
    | allocQthreadFail =>
      refine ⟨rfl, ?_, ?_, ?_, ?_⟩ <;> simp [taosInitSchedulerRun, cleanUpActions]
    | emptySemFail =>
      refine ⟨rfl, ?_, ?_, ?_, ?_⟩ <;> simp [taosInitSchedulerRun, cleanUpActions]
    | fullSemFail =>
      refine ⟨rfl, ?_, ?_, ?_, ?_⟩ <;> simp [taosInitSchedulerRun, cleanUpActions]
    | threadFail k =>
      have hk : k < n := by simpa [isDetectedFail] using h
      refine ⟨by simp [taosInitSchedulerRun, hk], ?_, ?_, ?_, ?_⟩
      · intro _
        simp [taosInitSchedulerRun, hk, cleanUpActions]
      · intro _
        simp [taosInitSchedulerRun, hk, cleanUpActions]
      · intro _
        simp [taosInitSchedulerRun, hk, cleanUpActions]
      · intro i hi
        have hik : i < k := by
          simp [taosInitSchedulerRun, hk, cleanUpActions] at hi
          exact hi
        constructor
        · simp [taosInitSchedulerRun, hk, cleanUpActions]
          tauto
        · simp [taosInitSchedulerRun, hk, cleanUpActions]
          tauto
  · refine ⟨rfl, ?_, ?_⟩
    · simp [taosInitSchedulerRun]
    · simp [taosInitSchedulerRun]

theorem sched_init_all_or_nothing_witness :
    ((taosInitSchedulerRun (FailPoint.threadFail 1) 3 2).1 = none ∧
     (RAction.allocQueue ∈ (taosInitSchedulerRun (FailPoint.threadFail 1) 3 2).2 →
       RAction.freeQueue ∈ (taosInitSchedulerRun (FailPoint.threadFail 1) 3 2).2) ∧
     (RAction.allocQthread ∈ (taosInitSchedulerRun (FailPoint.threadFail 1) 3 2).2 →
       RAction.freeQthread ∈ (taosInitSchedulerRun (FailPoint.threadFail 1) 3 2).2) ∧
     (RAction.allocSched ∈ (taosInitSchedulerRun (FailPoint.threadFail 1) 3 2).2 →
       RAction.freeSched ∈ (taosInitSchedulerRun (FailPoint.threadFail 1) 3 2).2) ∧
     (∀ i, RAction.threadCreate i ∈ (taosInitSchedulerRun (FailPoint.threadFail 1) 3 2).2 →
       RAction.threadCancel i ∈ (taosInitSchedulerRun (FailPoint.threadFail 1) 3 2).2 ∧
       RAction.threadJoin i ∈ (taosInitSchedulerRun (FailPoint.threadFail 1) 3 2).2)) ∧
    ((taosInitSchedulerRun FailPoint.mutexInitFail 3 2).1 =
       some { queueAlloc := true, qthreadAlloc := true,
              numOfThreads := 2, pTimer := none } ∧
     RAction.mutexInitFailed ∈ (taosInitSchedulerRun FailPoint.mutexInitFail 3 2).2 ∧
     RAction.logError ∉ (taosInitSchedulerRun FailPoint.mutexInitFail 3 2).2) :=
  sched_init_all_or_nothing (FailPoint.threadFail 1) 3 2 (by decide)

/-- A fully constructed scheduler's resource state (2 started workers
and a stored timer registration), used for the shutdown claims. -/
def witBuild : SchedBuild :=
  { queueAlloc := true, qthreadAlloc := true, numOfThreads := 2, pTimer := some 5 }

/-- C7 counterexample: `taosCleanUpScheduler` frees the handle struct
itself as its last action and cannot mark the caller's pointer NULL
(the handle is passed by value), so a second call with the same
still-non-NULL handle replays the whole teardown: across two calls on
the same handle the struct is freed twice — a double free, not a safe
no-op. -/
theorem sched_cleanup_repeat_counterexample :
    (taosCleanUpScheduler (some witBuild) ++
      taosCleanUpScheduler (some witBuild)).count RAction.freeSched = 2 ∧
    taosCleanUpScheduler (some witBuild) ≠ [] := by
  decide

/-- C7 (amended): shutdown on an absent (NULL) handle is a no-op; on a
live handle every started worker is cancelled and then joined, both
semaphores and the mutex are destroyed, a stored timer registration is
stopped, the allocated slot buffer and thread table are freed, and the
handle struct itself is freed last — consequently a repeated shutdown
call is a safe no-op only when made with the absent handle, not with
the original (now dangling) pointer. -/
theorem sched_cleanup_contract (b : SchedBuild) :
    taosCleanUpScheduler none = [] ∧
    (∀ i, i < b.numOfThreads →
      RAction.threadCancel i ∈ taosCleanUpScheduler (some b) ∧
      RAction.threadJoin i ∈ taosCleanUpScheduler (some b)) ∧
    RAction.semDestroy SemId.empty ∈ taosCleanUpScheduler (some b) ∧
    RAction.semDestroy SemId.full ∈ taosCleanUpScheduler (some b) ∧
    RAction.mutexDestroy ∈ taosCleanUpScheduler (some b) ∧
    (b.pTimer ≠ none → RAction.timerStop ∈ taosCleanUpScheduler (some b)) ∧
    (b.queueAlloc = true → RAction.freeQueue ∈ taosCleanUpScheduler (some b)) ∧
    (b.qthreadAlloc = true → RAction.freeQthread ∈ taosCleanUpScheduler (some b)) ∧
    (taosCleanUpScheduler (some b)).getLast? = some RAction.freeSched := by
  refine ⟨rfl, ?_, ?_, ?_, ?_, ?_, ?_, ?_, ?_⟩
  · intro i hi
    exact ⟨mem_cleanUp_threadCancel b i hi, mem_cleanUp_threadJoin b i hi⟩
  · simp [taosCleanUpScheduler, cleanUpActions]
  · simp [taosCleanUpScheduler, cleanUpActions]
  · simp [taosCleanUpScheduler, cleanUpActions]
  · intro ht
    rcases hp : b.pTimer with _ | t
    · exact absurd hp ht
    · simp [taosCleanUpScheduler, cleanUpActions, hp]
  · intro hq
    exact mem_cleanUp_freeQueue b hq
  · intro hq
    exact mem_cleanUp_freeQthread b hq
  · show (cleanUpActions b).getLast? = some RAction.freeSched
    unfold cleanUpActions
    exact List.getLast?_concat _

theorem sched_cleanup_contract_witness :
    taosCleanUpScheduler none = [] ∧
    (∀ i, i < witBuild.numOfThreads →
      RAction.threadCancel i ∈ taosCleanUpScheduler (some witBuild) ∧
      RAction.threadJoin i ∈ taosCleanUpScheduler (some witBuild)) ∧
    RAction.semDestroy SemId.empty ∈ taosCleanUpScheduler (some witBuild) ∧
    RAction.semDestroy SemId.full ∈ taosCleanUpScheduler (some witBuild) ∧
    RAction.mutexDestroy ∈ taosCleanUpScheduler (some witBuild) ∧
    (witBuild.pTimer ≠ none → RAction.timerStop ∈ taosCleanUpScheduler (some witBuild)) ∧
    (witBuild.queueAlloc = true → RAction.freeQueue ∈ taosCleanUpScheduler (some witBuild)) ∧
    (witBuild.qthreadAlloc = true → RAction.freeQthread ∈ taosCleanUpScheduler (some witBuild)) ∧
    (taosCleanUpScheduler (some witBuild)).getLast? = some RAction.freeSched :=
  sched_cleanup_contract witBuild
